import Mathlib

/-!
Verification development for src/CPP/hw.cpp.

The program seeds the C random generator from the wall clock, then runs a
loop of ten iterations; each iteration draws a raw value from rand(),
maps it with the expression rand() % 100 + 1, stores it in the array
numbers, writes it to standard output followed by a space, and adds it to
the accumulator sum.  Before the loop the program writes the label line
"The random array elements are: " followed by std::endl; after the loop it
writes std::endl, then the label "The sum of the array elements is: ", the
value of sum, and a final std::endl, and returns 0.

The random source is modelled as a function from the call index to the raw
value returned by that call of rand().  The C standard guarantees rand()
returns a nonnegative int, so raw values are Nat.  The accumulator sum is a
C++ int; its value never leaves the range [10, 1000] (proved below), far
below 2^31, so Nat models it exactly and no overflow wrap is needed.
Standard output is modelled as a trace of write items, one per insertion
into std::cout.
-/

/-- One insertion into std::cout: a string literal, a printed integer, or
std::endl. -/
inductive Out where
  | str : String → Out
  | num : Nat → Out
  | endl : Out
deriving DecidableEq, Repr

/-- Embeds line 16 of hw.cpp: the mapping rand() % 100 + 1 applied to a raw
generator value. -/
def genValue (raw : Nat) : Nat := raw % 100 + 1

/-- Embeds line 9 of hw.cpp: const int SIZE = 10. -/
def SIZE : Nat := 10

/-- State of the loop of lines 15-19 of hw.cpp: the filled prefix of the
array numbers, the accumulator sum, and the output written by the loop
body so far. -/
structure LoopState where
  numbers : List Nat
  sum : Nat
  trace : List Out
deriving DecidableEq, Repr

/-- One iteration of the loop body (lines 16-18 of hw.cpp) at index i:
numbers[i] = rand() % 100 + 1; then std::cout << numbers[i] << " "; then
sum += numbers[i]. -/
def loopBody (rand : Nat → Nat) (st : LoopState) (i : Nat) : LoopState :=
  let v := genValue (rand i)
  { numbers := st.numbers ++ [v]
    sum := st.sum + v
    trace := st.trace ++ [Out.num v, Out.str " "] }

/-- State after the first n iterations of the loop of lines 15-19, started
from the empty array and sum = 0 (line 11). -/
def runLoop (rand : Nat → Nat) : Nat → LoopState
  | 0 => { numbers := [], sum := 0, trace := [] }
  | n + 1 => loopBody rand (runLoop rand n) n

/-- Result of one run of main: the array numbers, the final accumulator,
the full output trace, and the exit code. -/
structure RunResult where
  numbers : List Nat
  sum : Nat
  trace : List Out
  exitCode : Nat
deriving DecidableEq, Repr

/-- Embeds main (lines 5-26 of hw.cpp), with the raw values of successive
rand() calls supplied by the argument rand.  The srand(time(0)) call only
seeds the opaque generator and produces no output, so it has no further
effect on the model. -/
def main_run (rand : Nat → Nat) : RunResult :=
  let st := runLoop rand SIZE
  { numbers := st.numbers
    sum := st.sum
    trace := [Out.str "The random array elements are: ", Out.endl]
      ++ st.trace
      ++ [Out.endl]
      ++ [Out.str "The sum of the array elements is: ", Out.num st.sum, Out.endl]
    exitCode := 0 }

/-- Text produced by one write item: std::endl writes a newline. -/
def renderItem : Out → String
  | Out.str s => s
  | Out.num n => Nat.repr n
  | Out.endl => "\n"

/-- Text produced by a trace of write items, in order. -/
def render : List Out → String
  | [] => ""
  | o :: t => renderItem o ++ render t

/-- Splits a trace into the physical output lines, cutting at each
std::endl.  A trace that ends in std::endl yields a final empty line. -/
def linesOf : List Out → List String
  | [] => [""]
  | Out.endl :: rest => "" :: linesOf rest
  | o :: rest =>
    match linesOf rest with
    | [] => [renderItem o]
    | l :: ls => (renderItem o ++ l) :: ls

/-- All integers printed by a trace, in print order. -/
def numItems : List Out → List Nat
  | [] => []
  | Out.num n :: rest => n :: numItems rest
  | _ :: rest => numItems rest

/-- Raw sequence of the concrete scenario of section 8 of the spec. -/
def stubRaw : Nat → Nat :=
  fun i => List.getD [5, 99, 0, 3, 50, 7, 88, 12, 200, 1] i 0

/-- Replaces every printed integer by 0, keeping everything else: two
traces with the same shape differ only in which integers they print. -/
def shapeItem : Out → Out
  | Out.num _ => Out.num 0
  | o => o

/-- Shape of a trace: the trace with all printed integers blanked out. -/
def shapeOf (t : List Out) : List Out := t.map shapeItem

/-- Joins the printed numbers exactly the way the loop prints them: each
number followed by one space, a trailing space included. -/
def numbersLine : List Nat → String
  | [] => ""
  | n :: t => Nat.repr n ++ " " ++ numbersLine t

/-- First-line format that the spec asserts: the label and the ten numbers
on one line, separated by single spaces with no trailing separator. -/
def specFirstLine (nums : List Nat) : String :=
  "The random array elements are: " ++ String.intercalate " " (nums.map Nat.repr)

/- Structural lemmas about the loop and the trace. -/

theorem runLoop_numbers (rand : Nat → Nat) (n : Nat) :
    (runLoop rand n).numbers = (List.range n).map (fun i => genValue (rand i)) := by
  induction n with
  | zero => rfl
  | succ n ih => simp [runLoop, loopBody, List.range_succ, ih]

theorem runLoop_sum (rand : Nat → Nat) (n : Nat) :
    (runLoop rand n).sum = ((runLoop rand n).numbers).sum := by
  induction n with
  | zero => rfl
  | succ n ih => simp [runLoop, loopBody, ih]

theorem numItems_append (a b : List Out) :
    numItems (a ++ b) = numItems a ++ numItems b := by
  induction a with
  | nil => rfl
  | cons o t ih => cases o <;> simp [numItems, ih]

theorem runLoop_numItems (rand : Nat → Nat) (n : Nat) :
    numItems (runLoop rand n).trace = (runLoop rand n).numbers := by
  induction n with
  | zero => rfl
  | succ n ih => simp [runLoop, loopBody, numItems_append, numItems, ih]

theorem runLoop_no_endl (rand : Nat → Nat) (n : Nat) :
    Out.endl ∉ (runLoop rand n).trace := by
  induction n with
  | zero => simp [runLoop]
  | succ n ih => simp [runLoop, loopBody, ih]

theorem runLoop_sum_bounds (rand : Nat → Nat) (n : Nat) :
    n ≤ (runLoop rand n).sum ∧ (runLoop rand n).sum ≤ 100 * n := by
  induction n with
  | zero => simp [runLoop]
  | succ n ih =>
    have hlt : rand n % 100 < 100 := Nat.mod_lt _ (by norm_num)
    simp only [runLoop, loopBody, genValue]
    omega

theorem render_append (a b : List Out) :
    render (a ++ b) = render a ++ render b := by
  induction a with
  | nil => simp [render]
  | cons o t ih => simp [render, ih, String.append_assoc]

theorem numbersLine_append (a b : List Nat) :
    numbersLine (a ++ b) = numbersLine a ++ numbersLine b := by
  induction a with
  | nil => simp [numbersLine]
  | cons n t ih => simp [numbersLine, ih, String.append_assoc]

theorem render_runLoop (rand : Nat → Nat) (n : Nat) :
    render (runLoop rand n).trace = numbersLine (runLoop rand n).numbers := by
  induction n with
  | zero => rfl
  | succ n ih =>
    simp [runLoop, loopBody, render_append, numbersLine_append, render,
      renderItem, numbersLine, ih, String.append_assoc]

theorem linesOf_split (t rest : List Out) (h : Out.endl ∉ t) :
    linesOf (t ++ Out.endl :: rest) = render t :: linesOf rest := by
  induction t with
  | nil => simp [linesOf, render]
  | cons o t ih =>
    have ho : o ≠ Out.endl := fun he => h (he ▸ List.mem_cons_self o t)
    have ht : Out.endl ∉ t := fun hm => h (List.mem_cons_of_mem o hm)
    cases o with
    | endl => exact absurd rfl ho
    | str s => simp [linesOf, ih ht, render, renderItem]
    | num n => simp [linesOf, ih ht, render, renderItem]

theorem linesOf_program (t : List Out) (h : Out.endl ∉ t) (L1 L2 : String) (s : Nat) :
    linesOf (Out.str L1 :: Out.endl :: (t ++ Out.endl :: [Out.str L2, Out.num s, Out.endl])) =
      [L1, render t, L2 ++ Nat.repr s, ""] := by
  simp [linesOf, renderItem, linesOf_split _ _ h, String.append_assoc]

theorem shapeOf_runLoop (r1 r2 : Nat → Nat) (n : Nat) :
    shapeOf (runLoop r1 n).trace = shapeOf (runLoop r2 n).trace := by
  induction n with
  | zero => rfl
  | succ n ih =>
    simp only [runLoop, loopBody, shapeOf, List.map_append] at ih ⊢
    simp [ih, shapeItem]

theorem runLoop_congr (r1 r2 : Nat → Nat) (n : Nat) (h : ∀ i, i < n → r1 i = r2 i) :
    runLoop r1 n = runLoop r2 n := by
  induction n with
  | zero => rfl
  | succ n ih =>
    have hn : r1 n = r2 n := h n (Nat.lt_succ_self n)
    rw [runLoop, runLoop, ih (fun i hi => h i (Nat.lt_succ_of_lt hi)), loopBody, loopBody, hn]

/-- C1: the total the program reports is the fold of exactly the ten
numbers it displays: each run prints ten numbers, the accumulator equals
their arithmetic sum, and the integers appearing anywhere in the output
are exactly those ten numbers followed by that sum and nothing else. -/
theorem claim1_displayed_sum_is_fold (rand : Nat → Nat) :
    (main_run rand).numbers.length = 10 ∧
    (main_run rand).sum = ((main_run rand).numbers).sum ∧
    numItems (main_run rand).trace = (main_run rand).numbers ++ [(main_run rand).sum] := by
  refine ⟨?_, ?_, ?_⟩
  · simp [main_run, runLoop_numbers, SIZE]
  · simpa [main_run] using runLoop_sum rand SIZE
  · simp [main_run, numItems_append, numItems, runLoop_numItems, runLoop_numbers,
      SIZE, List.range_succ]

/-- C2: every element of the array is obtained from the raw generator
value by the mapping raw % 100 + 1, and for every nonnegative raw value
that mapping lands in the closed range from 1 to 100. -/
theorem claim2_mapping_and_range (rand : Nat → Nat) :
    (main_run rand).numbers = (List.range SIZE).map (fun i => genValue (rand i)) ∧
    ∀ raw : Nat, 1 ≤ genValue raw ∧ genValue raw ≤ 100 := by
  refine ⟨by simp [main_run, runLoop_numbers], fun raw => ?_⟩
  have h : raw % 100 < 100 := Nat.mod_lt _ (by norm_num)
  simp only [genValue]
  omega

/-- C3: on the injected raw sequence 5, 99, 0, 3, 50, 7, 88, 12, 200, 1
the run produces the mapped array 6, 100, 1, 4, 51, 8, 89, 13, 1, 2 and
the final sum 275. -/
theorem claim3_concrete_scenario :
    (main_run stubRaw).numbers = [6, 100, 1, 4, 51, 8, 89, 13, 1, 2] ∧
    (main_run stubRaw).sum = 275 := by decide

/-- C4 counterexample: with every raw value 0 the first physical output
line is not the label followed by the ten space-separated numbers; the
program writes std::endl right after the label, so the numbers land on
the next line (and each is followed by a trailing space). -/
theorem claim4_counterexample :
    ¬ (linesOf (main_run (fun _ => 0)).trace)[0]? =
      some (specFirstLine (main_run (fun _ => 0)).numbers) := by decide

/-- C4 amended: the label line is terminated by a line break immediately
after the label; the ten integers then form the next physical line, each
followed by a single space (so a trailing space precedes that line's
break); the sum line and a final empty segment follow. -/
theorem claim4_amended_layout (rand : Nat → Nat) :
    linesOf (main_run rand).trace =
      ["The random array elements are: ",
       numbersLine (main_run rand).numbers,
       "The sum of the array elements is: " ++ Nat.repr (main_run rand).sum,
       ""] ∧
    (main_run rand).numbers.length = 10 := by
  constructor
  · have e : (main_run rand).trace =
        Out.str "The random array elements are: " :: Out.endl ::
          ((runLoop rand SIZE).trace ++ Out.endl ::
            [Out.str "The sum of the array elements is: ",
             Out.num (runLoop rand SIZE).sum, Out.endl]) := by
      simp [main_run]
    rw [e, linesOf_program _ (runLoop_no_endl rand SIZE), render_runLoop]
    rfl
  · simp [main_run, runLoop_numbers, SIZE]

/-- C5: after the ten values are generated and printed, the program writes
a line break, then the sum label, then the final sum value, then a line
break, and nothing after that. -/
theorem claim5_sum_line_epilogue (rand : Nat → Nat) :
    (main_run rand).trace =
      [Out.str "The random array elements are: ", Out.endl]
        ++ (runLoop rand SIZE).trace
        ++ [Out.endl, Out.str "The sum of the array elements is: ",
            Out.num ((main_run rand).sum), Out.endl] := by
  simp [main_run]

/-- C6: the accumulator starts at 0, and after i loop iterations it equals
the arithmetic sum of the first i generated values; the value the program
prints on the sum line is the accumulator after the full loop. -/
theorem claim6_accumulator_invariant (rand : Nat → Nat) (i : Nat) :
    (runLoop rand 0).sum = 0 ∧
    (runLoop rand i).sum = ((List.range i).map (fun j => genValue (rand j))).sum ∧
    (main_run rand).sum = (runLoop rand SIZE).sum := by
  refine ⟨rfl, ?_, rfl⟩
  rw [runLoop_sum, runLoop_numbers]

/-- C7: the shape of the output is the same for any two raw sequences:
blanking the printed integers yields identical traces, and both runs print
exactly ten numbers before the single sum line. -/
theorem claim7_structure_independent (r1 r2 : Nat → Nat) :
    shapeOf (main_run r1).trace = shapeOf (main_run r2).trace ∧
    (main_run r1).numbers.length = 10 ∧
    (main_run r2).numbers.length = 10 := by
  refine ⟨?_, ?_, ?_⟩
  · have h := shapeOf_runLoop r1 r2 SIZE
    simp only [main_run, shapeOf, List.map_append] at h ⊢
    simp [h, shapeItem]
  · simp [main_run, runLoop_numbers, SIZE]
  · simp [main_run, runLoop_numbers, SIZE]

/-- C8: on the normal path the run terminates with exit code 0, modelling
the return 0 of line 25. -/
theorem claim8_exit_code (rand : Nat → Nat) : (main_run rand).exitCode = 0 := rfl

/-- C9: the final sum of any run lies in the closed range from 10 to 1000,
far below 2 to the 31st, so the int accumulation cannot overflow. -/
theorem claim9_sum_bounds (rand : Nat → Nat) :
    10 ≤ (main_run rand).sum ∧ (main_run rand).sum ≤ 1000 ∧
      (main_run rand).sum < 2 ^ 31 := by
  have h := runLoop_sum_bounds rand SIZE
  have e : (main_run rand).sum = (runLoop rand SIZE).sum := rfl
  have hp : (2 : Nat) ^ 31 = 2147483648 := by norm_num
  rw [e]
  simp only [SIZE] at h ⊢
  omega

/-- C10: runs fed identical raw generator sequences are identical, output
text included: the whole run result and the rendered output agree. -/
theorem claim10_deterministic (r1 r2 : Nat → Nat) (h : ∀ i, i < SIZE → r1 i = r2 i) :
    main_run r1 = main_run r2 ∧
    render (main_run r1).trace = render (main_run r2).trace := by
  have e : runLoop r1 SIZE = runLoop r2 SIZE := runLoop_congr r1 r2 SIZE h
  constructor
  · simp [main_run, e]
  · simp [main_run, e]

/-- C10 witness: the determinism theorem applied to the constant zero
sequence against itself. -/
theorem claim10_deterministic_witness :
    (∀ i, i < SIZE → (fun _ : Nat => 0) i = (fun _ : Nat => 0) i) ∧
    main_run (fun _ => 0) = main_run (fun _ => 0) :=
  ⟨fun _ _ => rfl, (claim10_deterministic (fun _ => 0) (fun _ => 0) (fun _ _ => rfl)).1⟩
